import Mathlib

/-
  Verification development for the repository nsidc-subsetter
  (single source file nsidc_subset_altimetry.py).

  Shallow embedding: the query encoder, the session (opener) factory,
  the transfer executor (archive and extract modes), the connectivity
  guard and the main driver are translated into executable Lean
  definitions; external effects (HTTP responses, the zip decoder, the
  wall clock) are passed in as explicit parameters.  File-system state
  is an association list from path strings to file entries.
-/

namespace NS

/-! ## Decimal rendering of natural numbers (model of Python int rendering) -/

/-- The decimal digit character for a value below ten. -/
def digitChr (n : Nat) : Char := Char.ofNat (48 + n)

/-- Fueled decimal rendering of a natural number, most significant digit
first.  With fuel at least n + 1 this is the usual decimal form. -/
def natCharsFuel : Nat → Nat → List Char
  | 0, _ => []
  | fuel + 1, n =>
    if n < 10 then [digitChr n]
    else natCharsFuel fuel (n / 10) ++ [digitChr (n % 10)]

/-- Decimal string of a natural number. -/
def natStr (n : Nat) : String := String.mk (natCharsFuel (n + 1) n)

/-- Left-pad a character list with zeros up to width k. -/
def padZeros (k : Nat) (s : List Char) : List Char :=
  List.replicate (k - s.length) '0' ++ s

/-- Two-digit zero-padded decimal rendering. -/
def pad2 (n : Nat) : String := String.mk (padZeros 2 (natCharsFuel (n + 1) n))

/-- Four-digit zero-padded decimal rendering. -/
def pad4 (n : Nat) : String := String.mk (padZeros 4 (natCharsFuel (n + 1) n))

/-! ## Dates and times

Models the calls `dateutil.parser.parse(s).isoformat()` (source lines
126-127) and `time.strftime` with the pattern of source line 148.  The
external dateutil parser is modelled on the ISO date and date-time
forms, which are the forms the program documents and its calling
sequence uses; any other string is non-parseable and raises, which the
spec names `ParameterError`. -/

/-- A calendar date with a time of day, second precision. -/
structure DateTime where
  year : Nat
  month : Nat
  day : Nat
  hour : Nat
  minute : Nat
  second : Nat
deriving DecidableEq, Repr

/-- Gregorian leap-year rule. -/
def isLeap (y : Nat) : Bool := y % 4 == 0 && (y % 100 != 0 || y % 400 == 0)

/-- Days in a month of a given year. -/
def daysInMonth (y m : Nat) : Nat :=
  if m = 2 then (if isLeap y then 29 else 28)
  else if m = 4 ∨ m = 6 ∨ m = 9 ∨ m = 11 then 30
  else 31

/-- Validated date-time construction: checks the field ranges the
external parser enforces. -/
def mkDateTime (y mo d h mi s : Nat) : Option DateTime :=
  if 1 ≤ mo ∧ mo ≤ 12 ∧ 1 ≤ d ∧ d ≤ daysInMonth y mo ∧ h ≤ 23 ∧ mi ≤ 59 ∧ s ≤ 59 then
    some ⟨y, mo, d, h, mi, s⟩
  else none

/-- Numeric value of two decimal digit characters. -/
def num2 (a b : Char) : Nat := 10 * (a.toNat - 48) + (b.toNat - 48)

/-- Numeric value of four decimal digit characters. -/
def num4 (a b c d : Char) : Nat :=
  1000 * (a.toNat - 48) + 100 * (b.toNat - 48) + 10 * (c.toNat - 48) + (d.toNat - 48)

/-- Model of the external date parser: accepts an ISO date
(canonicalized to midnight) or an ISO date-time; everything else is
non-parseable and yields none. -/
def parseDatetime (str : String) : Option DateTime :=
  match str.data with
  | [y1, y2, y3, y4, '-', m1, m2, '-', d1, d2] =>
    if y1.isDigit && y2.isDigit && y3.isDigit && y4.isDigit &&
       m1.isDigit && m2.isDigit && d1.isDigit && d2.isDigit then
      mkDateTime (num4 y1 y2 y3 y4) (num2 m1 m2) (num2 d1 d2) 0 0 0
    else none
  | [y1, y2, y3, y4, '-', m1, m2, '-', d1, d2, 'T', h1, h2, ':', n1, n2, ':', s1, s2] =>
    if y1.isDigit && y2.isDigit && y3.isDigit && y4.isDigit &&
       m1.isDigit && m2.isDigit && d1.isDigit && d2.isDigit &&
       h1.isDigit && h2.isDigit && n1.isDigit && n2.isDigit &&
       s1.isDigit && s2.isDigit then
      mkDateTime (num4 y1 y2 y3 y4) (num2 m1 m2) (num2 d1 d2)
        (num2 h1 h2) (num2 n1 n2) (num2 s1 s2)
    else none
  | _ => none

/-- Canonical ISO-8601 rendering, as produced by the isoformat method. -/
def DateTime.isoformat (d : DateTime) : String :=
  pad4 d.year ++ "-" ++ pad2 d.month ++ "-" ++ pad2 d.day ++ "T" ++
  pad2 d.hour ++ ":" ++ pad2 d.minute ++ ":" ++ pad2 d.second

/-- The local timestamp of source line 148: strftime with dashes also
between the time fields. -/
def formatToday (d : DateTime) : String :=
  pad4 d.year ++ "-" ++ pad2 d.month ++ "-" ++ pad2 d.day ++ "T" ++
  pad2 d.hour ++ "-" ++ pad2 d.minute ++ "-" ++ pad2 d.second

/-! ## Bounding boxes

The four coordinates are modelled as integers in millionths of a
degree: Python renders each float with the format item 0:f, which is
fixed-point with exactly six fractional digits, so a coordinate's
transmitted value is exactly an integer number of millionths. -/

/-- A bounding box lon-min, lat-min, lon-max, lat-max, each coordinate
an integer count of millionths of a degree. -/
structure BBox where
  lonMin : Int
  latMin : Int
  lonMax : Int
  latMax : Int
deriving DecidableEq, Repr

/-- Fixed-point rendering with six fractional digits of a value given
in millionths: the model of the Python format item 0:f. -/
def formatFixed (x : Int) : String :=
  (if x < 0 then "-" else "") ++ natStr (x.natAbs / 1000000) ++ "." ++
  String.mk (padZeros 6 (natCharsFuel (x.natAbs % 1000000 + 1) (x.natAbs % 1000000)))

/-- The comma-separated rendering of the four box coordinates used by
both spatial flags (source lines 134-135). -/
def formatBBox (b : BBox) : String :=
  formatFixed b.lonMin ++ "," ++ formatFixed b.latMin ++ "," ++
  formatFixed b.lonMax ++ "," ++ formatFixed b.latMax

/-! ## The retrieval request and the query encoder (source lines 120-145) -/

/-- The error raised when a supplied time string is non-parseable: the
spec's ParameterError (in the source the external parser's exception
propagates). -/
inductive ParameterError where
  | invalidTime (s : String)
deriving DecidableEq, Repr

/-- The parameters of one subset retrieval, as a value. -/
structure RetrievalRequest where
  product : String
  version : Option String
  bbox : Option BBox
  timeRange : Option (String × String)
  format : Option String
deriving DecidableEq, Repr

/-- Parse and canonicalize both ends of the optional time range,
start first (source lines 126-127). -/
def parseTimes : Option (String × String) → Except ParameterError (Option (String × String))
  | none => Except.ok none
  | some (a, b) =>
    match parseDatetime a with
    | none => Except.error (ParameterError.invalidTime a)
    | some da =>
      match parseDatetime b with
      | none => Except.error (ParameterError.invalidTime b)
      | some db => Except.ok (some (da.isoformat, db.isoformat))

/-- Source line 121. -/
def product_flag (r : RetrievalRequest) : String := "?short_name=" ++ r.product

/-- Source line 122. -/
def version_flag (r : RetrievalRequest) : String :=
  match r.version with
  | some v => "&version=" ++ v
  | none => ""

/-- The time flag text from the canonicalized optional time pair
(source lines 128 and 130). -/
def timeFlagStr : Option (String × String) → String
  | some (s, e) => "&time=" ++ s ++ "," ++ e
  | none => ""

/-- Source lines 124-130. -/
def time_flag (r : RetrievalRequest) : Except ParameterError String :=
  (parseTimes r.timeRange).map timeFlagStr

/-- Source lines 133-137. -/
def bounds_flag (r : RetrievalRequest) : String :=
  match r.bbox with
  | some b => "&bounding_box=" ++ formatBBox b
  | none => ""

/-- Source lines 133-138. -/
def bbox_flag (r : RetrievalRequest) : String :=
  match r.bbox with
  | some b => "&bbox=" ++ formatBBox b
  | none => ""

/-- Source line 140. -/
def format_flag (r : RetrievalRequest) : String :=
  match r.format with
  | some f => "&format=" ++ f
  | none => ""

/-- Source line 143: the joined remote endpoint. -/
def HOST : String := "https://n5eil02u.ecs.nsidc.org/egi/request"

/-- Source lines 144-145: the full remote URL, the concatenation of the
endpoint and all flags in the source's order. -/
def remote_file (r : RetrievalRequest) : Except ParameterError String :=
  (time_flag r).map fun tf =>
    HOST ++ product_flag r ++ version_flag r ++ bounds_flag r ++
    bbox_flag r ++ tf ++ format_flag r

/-! ## The component view of the encoded query

A second rendering of the same query as a list of key=value components;
the refinement theorem for claim C1 proves the source's flat
concatenation equal to this structured form. -/

/-- The key of a query component: the characters before the first
equals sign. -/
def componentKey (c : String) : String :=
  String.mk (c.data.takeWhile (fun ch => ch ≠ '='))

/-- An optional component from an optional field. -/
def optComp (pre : String) : Option String → List String
  | some v => [pre ++ v]
  | none => []

/-- The two spatial components, present together when the box is set. -/
def spatialComps (r : RetrievalRequest) : List String :=
  match r.bbox with
  | some b => ["bounding_box=" ++ formatBBox b, "bbox=" ++ formatBBox b]
  | none => []

/-- The time component from the canonicalized optional time pair. -/
def timeComp : Option (String × String) → List String
  | some (s, e) => ["time=" ++ s ++ "," ++ e]
  | none => []

/-- The components of the encoded query in the source's fixed order. -/
def queryComponents (r : RetrievalRequest) : Except ParameterError (List String) :=
  (parseTimes r.timeRange).map fun ti =>
    ("short_name=" ++ r.product) ::
    (optComp "version=" r.version ++ spatialComps r ++ timeComp ti ++
     optComp "format=" r.format)

/-- Render the components after the first, each preceded by an
ampersand. -/
def renderRest : List String → String
  | [] => ""
  | c :: rest => "&" ++ c ++ renderRest rest

/-- Render a component list as a query string: question mark, first
component, then the rest with ampersand separators. -/
def renderComponents : List String → String
  | [] => ""
  | c :: rest => "?" ++ c ++ renderRest rest

/-! ## Base64 and the opener (session) factory (source lines 93-115) -/

/-- UTF-8 byte values of one character, as Python's string encode
method produces them. -/
def utf8Bytes (c : Char) : List Nat :=
  let n := c.toNat
  if n < 128 then [n]
  else if n < 2048 then [192 + n / 64, 128 + n % 64]
  else if n < 65536 then [224 + n / 4096, 128 + n / 64 % 64, 128 + n % 64]
  else [240 + n / 262144, 128 + n / 4096 % 64, 128 + n / 64 % 64, 128 + n % 64]

/-- The UTF-8 byte values of a string. -/
def strBytes (s : String) : List Nat := s.data.flatMap utf8Bytes

/-- The base64 alphabet. -/
def b64Alphabet : List Char :=
  "ABCDEFGHIJKLMNOPQRSTUVWXYZabcdefghijklmnopqrstuvwxyz0123456789+/".data

/-- The base64 character of a sextet value. -/
def b64c (n : Nat) : Char := b64Alphabet.getD n 'A'

/-- Standard base64 of a byte-value list, with padding. -/
def b64Chunks : List Nat → List Char
  | [] => []
  | [a] => [b64c (a / 4), b64c (a % 4 * 16), '=', '=']
  | [a, b] => [b64c (a / 4), b64c (a % 4 * 16 + b / 16), b64c (b % 16 * 4), '=']
  | a :: b :: c :: rest =>
    b64c (a / 4) :: b64c (a % 4 * 16 + b / 16) ::
    b64c (b % 16 * 4 + c / 64) :: b64c (c % 64) :: b64Chunks rest

/-- Base64 of the UTF-8 encoding of a string: the model of source
line 100. -/
def base64Of (s : String) : String := String.mk (b64Chunks (strBytes s))

/-- One entry of the password manager: realm (none is the default
realm), a top-level URI the entry is scoped to, username, password. -/
structure PasswordEntry where
  realm : Option String
  uri : String
  user : String
  password : String
deriving DecidableEq, Repr

/-- The opener built at source lines 95-115: the password-manager
entries behind the basic-auth handler, and the headers the opener adds
to every request it opens. -/
structure Opener where
  passwords : List PasswordEntry
  addheaders : List (String × String)
deriving DecidableEq, Repr

/-- Source lines 95-113: one password entry for the default realm
scoped to the Earthdata login URI, and a static Authorization header. -/
def buildOpener (user password : String) : Opener :=
  ⟨[⟨none, "https://urs.earthdata.nasa.gov", user, password⟩],
   [("Authorization", "Basic " ++ base64Of (user ++ ":" ++ password))]⟩

/-- The headers an outgoing request carries once opened by the opener:
its own headers plus the opener's added headers, unconditionally. -/
def openedHeaders (o : Opener) (reqHeaders : List (String × String)) : List (String × String) :=
  reqHeaders ++ o.addheaders

/-! ## Errors of a run -/

/-- An HTTP-level failure of urlopen: a non-2xx status or a lower-level
I/O error. -/
inductive HttpError where
  | status (code : Nat)
  | urlError (msg : String)
deriving DecidableEq, Repr

/-- An archive that cannot be parsed during extraction: the spec's
FormatError. -/
inductive FormatError where
  | badZip (msg : String)
deriving DecidableEq, Repr

/-- Every way a run can abort, one constructor per exception the source
can raise. -/
inductive RunError where
  | parameter (e : ParameterError)
  | transfer (e : HttpError)
  | format (e : FormatError)
  | connectivity
  | invalidProduct (p : String)
  | noArguments
deriving DecidableEq, Repr

/-- The message attached to each raised error in the source. -/
def errorMessage : RunError → String
  | RunError.parameter (ParameterError.invalidTime s) => "Unknown string format: " ++ s
  | RunError.transfer (HttpError.status c) => "HTTP Error " ++ natStr c
  | RunError.transfer (HttpError.urlError m) => m
  | RunError.format (FormatError.badZip m) => m
  | RunError.connectivity => "Check internet connection"
  | RunError.invalidProduct p => "Incorrect Data Product Entered (" ++ p ++ ")"
  | RunError.noArguments => "No System Arguments Listed"

/-! ## The file system model

An association list from path strings to file entries; a later set for
a path replaces the earlier entry. -/

/-- A file's content (byte values) and POSIX permission mode. -/
structure FileEntry where
  content : List Nat
  mode : Nat
deriving DecidableEq, Repr

/-- The file-system state. -/
abbrev FS := List (String × FileEntry)

/-- Look a path up. -/
def FS.get (fs : FS) (p : String) : Option FileEntry :=
  match fs.find? (fun kv => kv.1 == p) with
  | some kv => some kv.2
  | none => none

/-- Create or replace the file at a path. -/
def FS.set (fs : FS) (p : String) (e : FileEntry) : FS :=
  (p, e) :: fs.filter (fun kv => kv.1 != p)

/-- Change the permission mode of the file at a path. -/
def FS.chmod (fs : FS) (p : String) (m : Nat) : FS :=
  fs.map (fun kv => if kv.1 == p then (kv.1, ⟨kv.2.content, m⟩) else kv)

/-- Boolean string-prefix test over the underlying character lists. -/
def isPrefixStr (a b : String) : Bool := a.data.isPrefixOf b.data

/-- How many files live strictly below a directory path. -/
def FS.countUnder (fs : FS) (dir : String) : Nat :=
  (fs.filter (fun kv => isPrefixStr (dir ++ "/") kv.1)).length

/-- Model of path joining as the source uses it: a separator between a
directory and a relative member name. -/
def pathJoin (a b : String) : String := a ++ "/" ++ b

/-! ## The transfer executor (source lines 147-186) -/

/-- Source line 180: the fixed chunk size of the streaming copy. -/
def CHUNK : Nat := 16 * 1024

/-- The successive chunks the streaming copy reads, fueled; fuel at
least the data length covers the whole body. -/
def copyChunksFuel : Nat → List Nat → List (List Nat)
  | 0, _ => []
  | _, [] => []
  | fuel + 1, d => d.take CHUNK :: copyChunksFuel fuel (d.drop CHUNK)

/-- The chunk sequence of the streaming copy of source line 182. -/
def copyChunks (d : List Nat) : List (List Nat) := copyChunksFuel d.length d

/-- One member of the downloaded zip archive. -/
structure ZipMember where
  filename : String
  content : List Nat
deriving DecidableEq, Repr

/-- The extraction loop of source lines 162-166: for each member in
order, extract it under the destination directory (created with the
process default mode w), then chmod it to MODE. -/
def extractFold (dest : String) (MODE w : Nat) (fs : FS) (members : List ZipMember) : FS :=
  members.foldl
    (fun acc m =>
      FS.chmod (FS.set acc (pathJoin dest m.filename) ⟨m.content, w⟩)
        (pathJoin dest m.filename) MODE)
    fs

/-- The observable result of one call of the subset routine: the opener
it installed, the outcome (unit, or the exception that propagated), and
the resulting file-system state. -/
structure SubsetResult where
  opener : Opener
  outcome : Except RunError Unit
  fs : FS
deriving Repr

/-- The subset acquisition routine of source lines 90-186, with the
environment passed explicitly: the zip decoder, the wall clock at
execution start, the default creation mode w, and the HTTP layer as a
function from URL to response outcome.  VERBOSE only prints and is not
modelled; CLOBBER is accepted as in the source signature. -/
def nsidc_subset_altimetry
    (zipParse : List Nat → Except FormatError (List ZipMember))
    (now : DateTime) (w : Nat)
    (http : String → Except HttpError (List Nat)) (fs : FS)
    (filepath : String) (PRODUCT : String) (VERSION : Option String)
    (BBOX : Option BBox) (TIME : Option (String × String)) (FORMAT : Option String)
    (USER : String) (PASSWORD : String) (MODE : Nat)
    (CLOBBER : Bool) (VERBOSE : Bool) (UNZIP : Bool) : SubsetResult :=
  let opener := buildOpener USER PASSWORD
  match remote_file ⟨PRODUCT, VERSION, BBOX, TIME, FORMAT⟩ with
  | Except.error e => ⟨opener, Except.error (RunError.parameter e), fs⟩
  | Except.ok url =>
    let today := formatToday now
    if UNZIP then
      match http url with
      | Except.error e => ⟨opener, Except.error (RunError.transfer e), fs⟩
      | Except.ok body =>
        match zipParse body with
        | Except.error fe => ⟨opener, Except.error (RunError.format fe), fs⟩
        | Except.ok members =>
          let dest := pathJoin filepath (PRODUCT ++ "_" ++ today)
          ⟨opener, Except.ok (), extractFold dest MODE w fs members⟩
    else
      match http url with
      | Except.error e => ⟨opener, Except.error (RunError.transfer e), fs⟩
      | Except.ok body =>
        let lf := pathJoin filepath (PRODUCT ++ "_" ++ today ++ ".zip")
        ⟨opener, Except.ok (),
         FS.chmod (FS.set fs lf ⟨(copyChunks body).flatten, w⟩) lf MODE⟩

/-- The outcome urlopen delivers for a response status: the body for a
2xx status, an HTTPError exception otherwise. -/
def urlopenResult (status : Nat) (body : List Nat) : Except HttpError (List Nat) :=
  if 200 ≤ status ∧ status < 300 then Except.ok body
  else Except.error (HttpError.status status)

/-! ## The connectivity guard and the main driver (source lines 79-87
and 201-286) -/

/-- Source line 83: the URL the reachability probe opens. -/
def connectionURL : String := "https://n5eil01u.ecs.nsidc.org/"

/-- Source line 83: the probe timeout in seconds. -/
def connectionTimeout : Nat := 1

/-- Source lines 80-87: the connectivity check; reachable is whether
the probe's urlopen succeeds within the timeout. -/
def check_connection (reachable : Bool) : Except RunError Bool :=
  if reachable then Except.ok true else Except.error RunError.connectivity

/-- Source lines 244-261: the keys of the product dictionary. -/
def validProducts : List String :=
  ["GLAH12", "ILATM2", "ILATM1B", "ILVIS1B", "ILVIS2", "ATL03", "ATL04",
   "ATL06", "ATL07", "ATL08", "ATL09", "ATL10", "ATL12", "ATL13"]

/-- Source lines 281-286: process the product arguments in order; an
unknown product raises; a valid product has its query constructed and
its request issued (the URL is appended to the log).  A query-encoding
failure propagates as the source's exception does. -/
def processProducts (VERSION : Option String) (BBOX : Option BBox)
    (TIME : Option (String × String)) (FORMAT : Option String) :
    List String → List String → Except RunError Unit × List String
  | [], acc => (Except.ok (), acc.reverse)
  | p :: rest, acc =>
    if p ∈ validProducts then
      match remote_file ⟨p, VERSION, BBOX, TIME, FORMAT⟩ with
      | Except.ok url => processProducts VERSION BBOX TIME FORMAT rest (url :: acc)
      | Except.error e => (Except.error (RunError.parameter e), acc.reverse)
    else (Except.error (RunError.invalidProduct p), acc.reverse)

/-- The driver of source lines 202-286 after option parsing and
credential prompting: an empty product list raises; then the
connectivity check runs; then the products are processed.  The second
component is the log of constructed query URLs, one per issued
request. -/
def runMain (reachable : Bool) (products : List String) (VERSION : Option String)
    (BBOX : Option BBox) (TIME : Option (String × String)) (FORMAT : Option String) :
    Except RunError Unit × List String :=
  if products.isEmpty then (Except.error RunError.noArguments, [])
  else
    match check_connection reachable with
    | Except.error e => (Except.error e, [])
    | Except.ok _ => processProducts VERSION BBOX TIME FORMAT products []

/-! # Theorems -/

/-- Strings with equal character data are equal. -/
theorem strExt (a b : String) (h : a.data = b.data) : a = b := by
  cases a; cases b; exact congrArg String.mk h

/-- String concatenation is associative. -/
theorem strAssoc (a b c : String) : a ++ b ++ c = a ++ (b ++ c) := by
  apply strExt; simp [String.data_append]

/-- Merging a split literal head across an abstract tail. -/
theorem mergeHead (a b c v : String) (h : a ++ b = c) : a ++ (b ++ v) = c ++ v := by
  rw [← h, ← strAssoc]

/-- Rendering the later components distributes over list append. -/
theorem renderRest_append (xs ys : List String) :
    renderRest (xs ++ ys) = renderRest xs ++ renderRest ys := by
  induction xs with
  | nil => simp [renderRest]
  | cons c rest ih => simp [renderRest, ih, strAssoc]

/-- The version component renders to the source's version flag. -/
theorem renderRest_version (r : RetrievalRequest) :
    renderRest (optComp "version=" r.version) = version_flag r := by
  cases hv : r.version with
  | none => simp [optComp, renderRest, version_flag, hv]
  | some v =>
    simp only [optComp, renderRest, version_flag, hv]
    rw [String.append_empty]
    exact mergeHead _ _ _ _ (by decide)

/-- The format component renders to the source's format flag. -/
theorem renderRest_format (r : RetrievalRequest) :
    renderRest (optComp "format=" r.format) = format_flag r := by
  cases hf : r.format with
  | none => simp [optComp, renderRest, format_flag, hf]
  | some f =>
    simp only [optComp, renderRest, format_flag, hf]
    rw [String.append_empty]
    exact mergeHead _ _ _ _ (by decide)

/-- The two spatial components render to the source's two spatial
flags. -/
theorem renderRest_spatial (r : RetrievalRequest) :
    renderRest (spatialComps r) = bounds_flag r ++ bbox_flag r := by
  cases hb : r.bbox with
  | none => simp [spatialComps, renderRest, bounds_flag, bbox_flag, hb]
  | some b =>
    simp only [spatialComps, renderRest, bounds_flag, bbox_flag, hb]
    rw [String.append_empty]
    rw [mergeHead "&" "bounding_box=" "&bounding_box=" _ (by decide)]
    rw [mergeHead "&" "bbox=" "&bbox=" _ (by decide)]

/-- The time component renders to the source's time flag text. -/
theorem renderRest_time (ti : Option (String × String)) :
    renderRest (timeComp ti) = timeFlagStr ti := by
  cases ti with
  | none => simp [timeComp, renderRest, timeFlagStr]
  | some p =>
    obtain ⟨s, e⟩ := p
    simp only [timeComp, renderRest, timeFlagStr]
    rw [String.append_empty]
    rw [strAssoc "time=" s ",", strAssoc "time=" (s ++ ",") e]
    rw [mergeHead "&" "time=" "&time=" _ (by decide)]
    rw [strAssoc "&time=" s ",", strAssoc "&time=" (s ++ ",") e]

/-- The source's flat query string is the rendering of the component
list: refinement of the encoder of lines 144-145 by the structured
component view. -/
theorem remote_file_renders (r : RetrievalRequest) (cs : List String)
    (h : queryComponents r = Except.ok cs) :
    remote_file r = Except.ok (HOST ++ renderComponents cs) := by
  cases hp : parseTimes r.timeRange with
  | error e => simp [queryComponents, hp, Except.map] at h
  | ok ti =>
    simp only [queryComponents, hp, Except.map, Except.ok.injEq] at h
    subst h
    simp only [remote_file, time_flag, hp, Except.map, Except.ok.injEq]
    rw [renderComponents]
    rw [renderRest_append, renderRest_append, renderRest_append]
    rw [renderRest_version, renderRest_spatial, renderRest_time, renderRest_format]
    rw [mergeHead "?" "short_name=" "?short_name=" _ (by decide)]
    apply strExt
    simp [String.data_append, List.append_assoc, product_flag]

/-- takeWhile over a list whose head part satisfies the predicate and
whose next character refutes it returns exactly the head part. -/
theorem takeWhile_append_stop (l : List Char) (c : Char) (rest : List Char) (p : Char → Bool)
    (hl : ∀ x ∈ l, p x = true) (hc : p c = false) :
    (l ++ c :: rest).takeWhile p = l := by
  induction l with
  | nil => simp [List.takeWhile, hc]
  | cons a l ih =>
    simp only [List.cons_append, List.takeWhile]
    rw [hl a (by simp)]
    simp [ih (fun x hx => hl x (by simp [hx]))]

/-- The key of a component built from a key literal, an equals sign and
an arbitrary value. -/
theorem key_of_comp (key keyEq v : String) (he : keyEq = key ++ "=")
    (hk : ∀ c ∈ key.data, c ≠ '=') :
    componentKey (keyEq ++ v) = key := by
  subst he
  apply strExt
  show ((key ++ "=" ++ v).data.takeWhile _) = key.data
  rw [String.data_append, String.data_append]
  rw [(by decide : ("=" : String).data = ['='])]
  rw [List.append_assoc]
  exact takeWhile_append_stop key.data '=' v.data _
    (fun x hx => by simpa using hk x hx) (by decide)

/-- Key of the short-name component. -/
theorem key_short_name (v : String) : componentKey ("short_name=" ++ v) = "short_name" :=
  key_of_comp "short_name" "short_name=" v (by decide) (by decide)

/-- Key of the version component. -/
theorem key_version (v : String) : componentKey ("version=" ++ v) = "version" :=
  key_of_comp "version" "version=" v (by decide) (by decide)

/-- Key of the bounding-box component. -/
theorem key_bounding_box (v : String) :
    componentKey ("bounding_box=" ++ v) = "bounding_box" :=
  key_of_comp "bounding_box" "bounding_box=" v (by decide) (by decide)

/-- Key of the bbox component. -/
theorem key_bbox (v : String) : componentKey ("bbox=" ++ v) = "bbox" :=
  key_of_comp "bbox" "bbox=" v (by decide) (by decide)

/-- Key of the time component. -/
theorem key_time (s e : String) :
    componentKey ("time=" ++ s ++ "," ++ e) = "time" := by
  rw [strAssoc "time=" s ",", strAssoc "time=" (s ++ ",") e]
  exact key_of_comp "time" "time=" ((s ++ ",") ++ e) (by decide) (by decide)

/-- Key of the format component. -/
theorem key_format (v : String) : componentKey ("format=" ++ v) = "format" :=
  key_of_comp "format" "format=" v (by decide) (by decide)

/-- The key sequence of the successfully encoded component list: the
required short name first, then each optional key exactly when the
field is set, in the source's fixed order. -/
theorem queryComponents_keys (r : RetrievalRequest) (cs : List String)
    (h : queryComponents r = Except.ok cs) :
    cs.map componentKey = "short_name" ::
      ((if r.version.isSome then ["version"] else []) ++
       (if r.bbox.isSome then ["bounding_box", "bbox"] else []) ++
       (if r.timeRange.isSome then ["time"] else []) ++
       (if r.format.isSome then ["format"] else [])) := by
  obtain ⟨prod, ver, bb, tr, fo⟩ := r
  have hti : ∃ ti, parseTimes tr = Except.ok ti ∧ ti.isSome = tr.isSome := by
    cases ht : tr with
    | none => exact ⟨none, rfl, rfl⟩
    | some pr =>
      obtain ⟨a, b⟩ := pr
      cases ha : parseDatetime a with
      | none => simp [queryComponents, parseTimes, ht, ha, Except.map] at h
      | some da =>
        cases hb : parseDatetime b with
        | none => simp [queryComponents, parseTimes, ht, ha, hb, Except.map] at h
        | some db =>
          exact ⟨some (da.isoformat, db.isoformat), by simp [parseTimes, ha, hb], rfl⟩
  obtain ⟨ti, hp, hsome⟩ := hti
  simp only [queryComponents, hp, Except.map, Except.ok.injEq] at h
  subst h
  rw [← hsome]
  simp only [List.map_cons, List.map_append, key_short_name]
  congr 1
  cases ti with
  | none =>
    cases ver <;> cases bb <;> cases fo <;>
      simp [optComp, spatialComps, timeComp, key_version, key_bounding_box,
        key_bbox, key_format]
  | some pr =>
    obtain ⟨s, e⟩ := pr
    cases ver <;> cases bb <;> cases fo <;>
      simp [optComp, spatialComps, timeComp, key_version, key_bounding_box,
        key_bbox, key_format, key_time]

/-- C1: for every RetrievalRequest whose encoding succeeds, the encoded
query string is the rendering of a component list that begins with the
required short-name component carrying the product, contains a
short-name key exactly once, and whose optional components (version,
the two spatial components, time, format) are present exactly when the
corresponding field is set, in the source's fixed order. -/
theorem query_string_component_structure (r : RetrievalRequest) (cs : List String)
    (h : queryComponents r = Except.ok cs) :
    remote_file r = Except.ok (HOST ++ renderComponents cs) ∧
    cs.head? = some ("short_name=" ++ r.product) ∧
    List.countP (fun c => componentKey c == "short_name") cs = 1 ∧
    cs.map componentKey = "short_name" ::
      ((if r.version.isSome then ["version"] else []) ++
       (if r.bbox.isSome then ["bounding_box", "bbox"] else []) ++
       (if r.timeRange.isSome then ["time"] else []) ++
       (if r.format.isSome then ["format"] else [])) := by
  refine ⟨remote_file_renders r cs h, ?_, ?_, queryComponents_keys r cs h⟩
  · cases hp : parseTimes r.timeRange with
    | error e => simp [queryComponents, hp, Except.map] at h
    | ok ti =>
      simp only [queryComponents, hp, Except.map, Except.ok.injEq] at h
      subst h
      rfl
  · have hk := queryComponents_keys r cs h
    have hmap : List.countP (fun c => componentKey c == "short_name") cs
        = List.countP (fun s => s == "short_name") (cs.map componentKey) := by
      rw [List.countP_map]
      rfl
    rw [hmap, hk]
    cases r.version.isSome <;> cases r.bbox.isSome <;>
      cases r.timeRange.isSome <;> cases r.format.isSome <;> decide

set_option maxRecDepth 8000 in
/-- Witness for C1 at a fully populated concrete request. -/
theorem query_string_component_structure_check :
    queryComponents ⟨"ATL06", some "002",
        some ⟨-50333330, 68566670, -49333330, 69566670⟩,
        some ("2018-11-23T00:00:00", "2018-11-23T23:59:59"), some "NetCDF4"⟩ =
      Except.ok ["short_name=ATL06", "version=002",
        "bounding_box=-50.333330,68.566670,-49.333330,69.566670",
        "bbox=-50.333330,68.566670,-49.333330,69.566670",
        "time=2018-11-23T00:00:00,2018-11-23T23:59:59", "format=NetCDF4"] ∧
    (remote_file ⟨"ATL06", some "002",
        some ⟨-50333330, 68566670, -49333330, 69566670⟩,
        some ("2018-11-23T00:00:00", "2018-11-23T23:59:59"), some "NetCDF4"⟩ =
      Except.ok (HOST ++ renderComponents ["short_name=ATL06", "version=002",
        "bounding_box=-50.333330,68.566670,-49.333330,69.566670",
        "bbox=-50.333330,68.566670,-49.333330,69.566670",
        "time=2018-11-23T00:00:00,2018-11-23T23:59:59", "format=NetCDF4"]) ∧
     List.head? ["short_name=ATL06", "version=002",
        "bounding_box=-50.333330,68.566670,-49.333330,69.566670",
        "bbox=-50.333330,68.566670,-49.333330,69.566670",
        "time=2018-11-23T00:00:00,2018-11-23T23:59:59", "format=NetCDF4"] =
       some ("short_name=" ++ "ATL06") ∧
     List.countP (fun c => componentKey c == "short_name")
        ["short_name=ATL06", "version=002",
         "bounding_box=-50.333330,68.566670,-49.333330,69.566670",
         "bbox=-50.333330,68.566670,-49.333330,69.566670",
         "time=2018-11-23T00:00:00,2018-11-23T23:59:59", "format=NetCDF4"] = 1 ∧
     List.map componentKey ["short_name=ATL06", "version=002",
        "bounding_box=-50.333330,68.566670,-49.333330,69.566670",
        "bbox=-50.333330,68.566670,-49.333330,69.566670",
        "time=2018-11-23T00:00:00,2018-11-23T23:59:59", "format=NetCDF4"] =
       "short_name" :: (["version"] ++ ["bounding_box", "bbox"] ++ ["time"] ++ ["format"])) :=
  ⟨by rfl,
   query_string_component_structure
     ⟨"ATL06", some "002", some ⟨-50333330, 68566670, -49333330, 69566670⟩,
      some ("2018-11-23T00:00:00", "2018-11-23T23:59:59"), some "NetCDF4"⟩
     ["short_name=ATL06", "version=002",
      "bounding_box=-50.333330,68.566670,-49.333330,69.566670",
      "bbox=-50.333330,68.566670,-49.333330,69.566670",
      "time=2018-11-23T00:00:00,2018-11-23T23:59:59", "format=NetCDF4"]
     (by rfl)⟩

/-- Decimal digit characters are digits. -/
theorem digitChr_isDigit (n : Nat) (h : n < 10) : (digitChr n).isDigit = true := by
  interval_cases n <;> decide

/-- Every character of the fueled decimal rendering is a digit. -/
theorem natCharsFuel_digits (fuel : Nat) : ∀ n c, c ∈ natCharsFuel fuel n → c.isDigit = true := by
  induction fuel with
  | zero => simp [natCharsFuel]
  | succ fuel ih =>
    intro n c hc
    simp only [natCharsFuel] at hc
    by_cases h : n < 10
    · simp only [if_pos h, List.mem_singleton] at hc
      subst hc
      exact digitChr_isDigit n h
    · simp only [if_neg h, List.mem_append, List.mem_singleton] at hc
      rcases hc with hc | hc
      · exact ih _ _ hc
      · subst hc
        exact digitChr_isDigit _ (Nat.mod_lt _ (by norm_num))

/-- Every character of the fixed-point rendering is a digit, a minus
sign or a decimal point: the rendering is fixed-point, never
scientific. -/
theorem formatFixed_chars (x : Int) (c : Char) (hc : c ∈ (formatFixed x).data) :
    c.isDigit = true ∨ c = '-' ∨ c = '.' := by
  have hminus : ("-" : String).data = ['-'] := by decide
  have hempty : ("" : String).data = [] := by decide
  have hdot : ("." : String).data = ['.'] := by decide
  simp only [formatFixed, String.data_append, List.mem_append, natStr] at hc
  rcases hc with ((hs | hi) | hd) | hf
  · by_cases hx : x < 0
    · rw [if_pos hx] at hs
      rw [hminus] at hs
      right; left; simpa using hs
    · rw [if_neg hx] at hs
      rw [hempty] at hs
      simp at hs
  · left; exact natCharsFuel_digits _ _ _ (by simpa using hi)
  · right; right; simpa using hd
  · have : c ∈ padZeros 6 (natCharsFuel (x.natAbs % 1000000 + 1) (x.natAbs % 1000000)) := by
      simpa using hf
    simp only [padZeros, List.mem_append] at this
    rcases this with hz | hn
    · left
      have := List.eq_of_mem_replicate hz
      subst this
      decide
    · left; exact natCharsFuel_digits _ _ _ hn

/-- Every character of the rendered box is a digit, minus, dot or the
comma separator. -/
theorem formatBBox_chars (b : BBox) (c : Char) (hc : c ∈ (formatBBox b).data) :
    c.isDigit = true ∨ c = '-' ∨ c = '.' ∨ c = ',' := by
  have hcomma : ("," : String).data = [','] := by decide
  simp only [formatBBox, String.data_append, List.mem_append] at hc
  rcases hc with ((((((h | h) | h) | h) | h) | h) | h)
  all_goals
    first
    | (rcases formatFixed_chars _ _ h with h1 | h1 | h1
       · exact Or.inl h1
       · exact Or.inr (Or.inl h1)
       · exact Or.inr (Or.inr (Or.inl h1)))
    | exact Or.inr (Or.inr (Or.inr (by simpa using h)))

/-- C2: when a bounding box is set, the encoder emits the spatial
filter twice, under the bounding-box key and under the bbox key, with
the identical rendered value; the rendering uses only digits, sign,
point and comma (fixed-point, never scientific), and the documented box
renders to the documented six-decimal value. -/
theorem bbox_dual_fixed_point (r : RetrievalRequest) (b : BBox) (h : r.bbox = some b) :
    bounds_flag r = "&bounding_box=" ++ formatBBox b ∧
    bbox_flag r = "&bbox=" ++ formatBBox b ∧
    (∀ c ∈ (formatBBox b).data, c.isDigit = true ∨ c = '-' ∨ c = '.' ∨ c = ',') ∧
    formatBBox ⟨-50333330, 68566670, -49333330, 69566670⟩ =
      "-50.333330,68.566670,-49.333330,69.566670" := by
  refine ⟨by simp [bounds_flag, h], by simp [bbox_flag, h],
    fun c hc => formatBBox_chars b c hc, by decide⟩

/-- Witness for C2 at the documented concrete box. -/
theorem bbox_dual_fixed_point_check :
    (⟨"ATL06", none, some ⟨-50333330, 68566670, -49333330, 69566670⟩, none, none⟩ :
        RetrievalRequest).bbox = some ⟨-50333330, 68566670, -49333330, 69566670⟩ ∧
    (bounds_flag ⟨"ATL06", none, some ⟨-50333330, 68566670, -49333330, 69566670⟩, none, none⟩ =
      "&bounding_box=" ++ formatBBox ⟨-50333330, 68566670, -49333330, 69566670⟩ ∧
     bbox_flag ⟨"ATL06", none, some ⟨-50333330, 68566670, -49333330, 69566670⟩, none, none⟩ =
      "&bbox=" ++ formatBBox ⟨-50333330, 68566670, -49333330, 69566670⟩ ∧
     (∀ c ∈ (formatBBox ⟨-50333330, 68566670, -49333330, 69566670⟩).data,
        c.isDigit = true ∨ c = '-' ∨ c = '.' ∨ c = ',') ∧
     formatBBox ⟨-50333330, 68566670, -49333330, 69566670⟩ =
      "-50.333330,68.566670,-49.333330,69.566670") :=
  ⟨rfl, bbox_dual_fixed_point
    ⟨"ATL06", none, some ⟨-50333330, 68566670, -49333330, 69566670⟩, none, none⟩
    ⟨-50333330, 68566670, -49333330, 69566670⟩ rfl⟩

/-- C3: when the time range is set and both ends parse, both are
normalized to canonical ISO form and emitted as the time flag; the
documented example encodes to the documented flag; and whenever either
end is non-parseable the whole encoding fails with a ParameterError
instead of producing a query. -/
theorem time_iso_normalization (r : RetrievalRequest) (a b : String) (da db : DateTime)
    (ht : r.timeRange = some (a, b))
    (ha : parseDatetime a = some da) (hb : parseDatetime b = some db) :
    time_flag r = Except.ok ("&time=" ++ da.isoformat ++ "," ++ db.isoformat) ∧
    time_flag ⟨"ATL06", none, none,
        some ("2018-11-23T00:00:00", "2018-11-23T23:59:59"), none⟩ =
      Except.ok "&time=2018-11-23T00:00:00,2018-11-23T23:59:59" ∧
    (∀ (r2 : RetrievalRequest) (s t : String), r2.timeRange = some (s, t) →
       parseDatetime s = none ∨ parseDatetime t = none →
       ∃ e : ParameterError, remote_file r2 = Except.error e) := by
  refine ⟨?_, by rfl, ?_⟩
  · simp [time_flag, parseTimes, ht, ha, hb, timeFlagStr, Except.map]
  · intro r2 s t ht2 hbad
    rcases hbad with hs | hsnone
    · exact ⟨ParameterError.invalidTime s,
        by simp [remote_file, time_flag, parseTimes, ht2, hs, Except.map]⟩
    · cases hps : parseDatetime s with
      | none => exact ⟨ParameterError.invalidTime s,
          by simp [remote_file, time_flag, parseTimes, ht2, hps, Except.map]⟩
      | some d => exact ⟨ParameterError.invalidTime t,
          by simp [remote_file, time_flag, parseTimes, ht2, hps, hsnone, Except.map]⟩

/-- Witness for C3 at the documented concrete time range. -/
theorem time_iso_normalization_check :
    (⟨"ATL06", none, none, some ("2018-11-23T00:00:00", "2018-11-23T23:59:59"), none⟩ :
        RetrievalRequest).timeRange = some ("2018-11-23T00:00:00", "2018-11-23T23:59:59") ∧
    parseDatetime "2018-11-23T00:00:00" = some ⟨2018, 11, 23, 0, 0, 0⟩ ∧
    parseDatetime "2018-11-23T23:59:59" = some ⟨2018, 11, 23, 23, 59, 59⟩ ∧
    (time_flag ⟨"ATL06", none, none,
        some ("2018-11-23T00:00:00", "2018-11-23T23:59:59"), none⟩ =
      Except.ok ("&time=" ++ DateTime.isoformat ⟨2018, 11, 23, 0, 0, 0⟩ ++ "," ++
        DateTime.isoformat ⟨2018, 11, 23, 23, 59, 59⟩) ∧
     time_flag ⟨"ATL06", none, none,
        some ("2018-11-23T00:00:00", "2018-11-23T23:59:59"), none⟩ =
      Except.ok "&time=2018-11-23T00:00:00,2018-11-23T23:59:59" ∧
     (∀ (r2 : RetrievalRequest) (s t : String), r2.timeRange = some (s, t) →
        parseDatetime s = none ∨ parseDatetime t = none →
        ∃ e : ParameterError, remote_file r2 = Except.error e)) :=
  ⟨rfl, by decide, by decide,
   time_iso_normalization
     ⟨"ATL06", none, none, some ("2018-11-23T00:00:00", "2018-11-23T23:59:59"), none⟩
     "2018-11-23T00:00:00" "2018-11-23T23:59:59"
     ⟨2018, 11, 23, 0, 0, 0⟩ ⟨2018, 11, 23, 23, 59, 59⟩
     rfl (by decide) (by decide)⟩

/-- C4: the opener built from credentials scopes its single
password-manager entry to the default realm and the login-service URI
only, which is not a prefix of the data endpoint, and attaches the
static basic Authorization header so every request opened through it
carries that header unconditionally, challenge or not. -/
theorem session_basic_auth_scoping (user pw : String) :
    (buildOpener user pw).passwords =
      [⟨none, "https://urs.earthdata.nasa.gov", user, pw⟩] ∧
    (∀ en ∈ (buildOpener user pw).passwords,
        en.realm = none ∧ en.uri = "https://urs.earthdata.nasa.gov" ∧
        isPrefixStr "https://n5eil02u.ecs.nsidc.org" en.uri = false) ∧
    (buildOpener user pw).addheaders =
      [("Authorization", "Basic " ++ base64Of (user ++ ":" ++ pw))] ∧
    (∀ hs : List (String × String),
        ("Authorization", "Basic " ++ base64Of (user ++ ":" ++ pw)) ∈
          openedHeaders (buildOpener user pw) hs) := by
  refine ⟨rfl, ?_, rfl, ?_⟩
  · intro en hen
    simp only [buildOpener, List.mem_singleton] at hen
    subst hen
    exact ⟨rfl, rfl,
      (by decide : isPrefixStr "https://n5eil02u.ecs.nsidc.org"
        "https://urs.earthdata.nasa.gov" = false)⟩
  · intro hs
    simp [openedHeaders, buildOpener]

/-- Witness for C4 at concrete credentials, with the header value
evaluated. -/
theorem session_basic_auth_scoping_check :
    ((buildOpener "user" "pw").passwords =
      [⟨none, "https://urs.earthdata.nasa.gov", "user", "pw"⟩] ∧
     (∀ en ∈ (buildOpener "user" "pw").passwords,
        en.realm = none ∧ en.uri = "https://urs.earthdata.nasa.gov" ∧
        isPrefixStr "https://n5eil02u.ecs.nsidc.org" en.uri = false) ∧
     (buildOpener "user" "pw").addheaders =
      [("Authorization", "Basic " ++ base64Of ("user" ++ ":" ++ "pw"))] ∧
     (∀ hs : List (String × String),
        ("Authorization", "Basic " ++ base64Of ("user" ++ ":" ++ "pw")) ∈
          openedHeaders (buildOpener "user" "pw") hs)) ∧
    base64Of ("user" ++ ":" ++ "pw") = "dXNlcjpwdw==" :=
  ⟨session_basic_auth_scoping "user" "pw", by decide⟩

/-- Looking up the path just set returns the new entry. -/
theorem FS.get_set_self (fs : FS) (p : String) (e : FileEntry) :
    (FS.set fs p e).get p = some e := by
  simp [FS.get, FS.set, List.find?]

/-- Filtering out one key leaves lookups of other keys unchanged. -/
theorem FS.find_filter_ne (fs : FS) (p q : String) (h : q ≠ p) :
    (fs.filter (fun kv => kv.1 != p)).find? (fun kv => kv.1 == q) =
      fs.find? (fun kv => kv.1 == q) := by
  induction fs with
  | nil => rfl
  | cons kv fs ih =>
    by_cases hk : kv.1 = p
    · have h2 : ¬ kv.1 = q := by rw [hk]; exact Ne.symm h
      rw [List.filter_cons_of_neg (by simp [hk])]
      rw [List.find?_cons_of_neg _ (by simp [h2])]
      exact ih
    · rw [List.filter_cons_of_pos (by simp [hk])]
      by_cases hq : kv.1 = q
      · rw [List.find?_cons_of_pos _ (by simp [hq]), List.find?_cons_of_pos _ (by simp [hq])]
      · rw [List.find?_cons_of_neg _ (by simp [hq]), List.find?_cons_of_neg _ (by simp [hq])]
        exact ih

/-- Setting one path leaves lookups of other paths unchanged. -/
theorem FS.get_set_ne (fs : FS) (p q : String) (e : FileEntry) (h : q ≠ p) :
    (FS.set fs p e).get q = fs.get q := by
  have hpq : (p == q) = false := by simp [Ne.symm h]
  simp only [FS.get, FS.set, List.find?, hpq]
  rw [FS.find_filter_ne fs p q h]

/-- Changing the mode of a path rewrites exactly that entry's mode. -/
theorem FS.get_chmod_self (fs : FS) (p : String) (m : Nat) :
    (FS.chmod fs p m).get p = (fs.get p).map (fun en => ⟨en.content, m⟩) := by
  induction fs with
  | nil => rfl
  | cons kv fs ih =>
    by_cases hk : kv.1 = p
    · simp only [FS.chmod, List.map_cons, if_pos (by simpa using hk)]
      simp only [FS.get]
      rw [List.find?_cons_of_pos _ (by simp [hk]), List.find?_cons_of_pos _ (by simp [hk])]
      simp [hk]
    · simp only [FS.chmod, List.map_cons, if_neg (by simpa using hk)]
      simp only [FS.get]
      rw [List.find?_cons_of_neg _ (by simp [hk]), List.find?_cons_of_neg _ (by simp [hk])]
      simp only [FS.chmod, FS.get] at ih
      exact ih

/-- Changing the mode of one path leaves lookups of other paths
unchanged. -/
theorem FS.get_chmod_ne (fs : FS) (p q : String) (m : Nat) (h : q ≠ p) :
    (FS.chmod fs p m).get q = fs.get q := by
  induction fs with
  | nil => rfl
  | cons kv fs ih =>
    simp only [FS.chmod, List.map_cons]
    by_cases hk : kv.1 = p
    · have hq2 : ¬ kv.1 = q := by rw [hk]; exact Ne.symm h
      rw [if_pos (by simpa using hk)]
      simp only [FS.get]
      rw [List.find?_cons_of_neg _ (by simp [hq2]), List.find?_cons_of_neg _ (by simp [hq2])]
      simp only [FS.chmod, FS.get] at ih
      exact ih
    · rw [if_neg (by simpa using hk)]
      by_cases hq : kv.1 = q
      · simp only [FS.get]
        rw [List.find?_cons_of_pos _ (by simp [hq]), List.find?_cons_of_pos _ (by simp [hq])]
      · simp only [FS.get]
        rw [List.find?_cons_of_neg _ (by simp [hq]), List.find?_cons_of_neg _ (by simp [hq])]
        simp only [FS.chmod, FS.get] at ih
        exact ih

/-- The streamed chunks reassemble to the whole body when the fuel
covers its length. -/
theorem copyChunksFuel_flatten (fuel : Nat) :
    ∀ d : List Nat, d.length ≤ fuel → (copyChunksFuel fuel d).flatten = d := by
  induction fuel with
  | zero =>
    intro d hd
    have : d = [] := List.eq_nil_of_length_eq_zero (Nat.le_zero.mp hd)
    subst this
    rfl
  | succ fuel ih =>
    intro d hd
    cases d with
    | nil => rfl
    | cons x xs =>
      simp only [copyChunksFuel, List.flatten_cons]
      rw [ih]
      · exact List.take_append_drop CHUNK (x :: xs)
      · have h1 : ((x :: xs).drop CHUNK).length = (x :: xs).length - CHUNK :=
          List.length_drop CHUNK (x :: xs)
        have hc : 1 ≤ CHUNK := by decide
        rw [h1]
        simp only [List.length_cons] at hd ⊢
        omega

/-- The chunked copy writes exactly the response body. -/
theorem copyChunks_flatten (d : List Nat) : (copyChunks d).flatten = d :=
  copyChunksFuel_flatten d.length d le_rfl

/-- Every streamed chunk is at most the fixed chunk size. -/
theorem copyChunksFuel_sizes (fuel : Nat) :
    ∀ (d : List Nat) (c : List Nat), c ∈ copyChunksFuel fuel d → c.length ≤ CHUNK := by
  induction fuel with
  | zero => simp [copyChunksFuel]
  | succ fuel ih =>
    intro d c hc
    cases d with
    | nil => simp [copyChunksFuel] at hc
    | cons x xs =>
      simp only [copyChunksFuel, List.mem_cons] at hc
      rcases hc with hc | hc
      · subst hc
        exact List.length_take_le CHUNK (x :: xs)
      · exact ih _ _ hc

/-- C5: a successful archive-mode (default) transfer writes the whole
response body to the single local file named from the product and the
start-time timestamp with a zip extension, leaves every other path
untouched, copies the body as a flattening of chunks each bounded by
the fixed chunk size, and finishes with the file's permission bits
equal to the configured mode. -/
theorem archive_mode_single_file
    (zp : List Nat → Except FormatError (List ZipMember)) (now : DateTime) (w : Nat)
    (http : String → Except HttpError (List Nat)) (fs : FS)
    (fp PRODUCT : String) (V : Option String) (B : Option BBox)
    (T : Option (String × String)) (F : Option String)
    (U PW : String) (MODE : Nat) (cl vb : Bool)
    (url : String) (body : List Nat)
    (hq : remote_file ⟨PRODUCT, V, B, T, F⟩ = Except.ok url)
    (hr : http url = Except.ok body) :
    (nsidc_subset_altimetry zp now w http fs fp PRODUCT V B T F U PW MODE cl vb false).outcome
      = Except.ok () ∧
    (nsidc_subset_altimetry zp now w http fs fp PRODUCT V B T F U PW MODE cl vb false).fs.get
        (pathJoin fp (PRODUCT ++ "_" ++ formatToday now ++ ".zip"))
      = some ⟨body, MODE⟩ ∧
    (∀ q, q ≠ pathJoin fp (PRODUCT ++ "_" ++ formatToday now ++ ".zip") →
      (nsidc_subset_altimetry zp now w http fs fp PRODUCT V B T F U PW MODE cl vb false).fs.get q
        = fs.get q) ∧
    (copyChunks body).flatten = body ∧
    (∀ c ∈ copyChunks body, c.length ≤ CHUNK) := by
  have hres : nsidc_subset_altimetry zp now w http fs fp PRODUCT V B T F U PW MODE cl vb false
      = ⟨buildOpener U PW, Except.ok (),
         FS.chmod (FS.set fs (pathJoin fp (PRODUCT ++ "_" ++ formatToday now ++ ".zip"))
             ⟨(copyChunks body).flatten, w⟩)
           (pathJoin fp (PRODUCT ++ "_" ++ formatToday now ++ ".zip")) MODE⟩ := by
    simp [nsidc_subset_altimetry, hq, hr]
  rw [hres]
  refine ⟨rfl, ?_, ?_, copyChunks_flatten body, fun c hc => copyChunksFuel_sizes _ _ _ hc⟩
  · rw [FS.get_chmod_self, FS.get_set_self]
    simp [copyChunks_flatten body]
  · intro q hqne
    rw [FS.get_chmod_ne _ _ _ _ hqne, FS.get_set_ne _ _ _ _ hqne]

/-- Witness for C5 on a small concrete transfer. -/
theorem archive_mode_single_file_check :
    remote_file ⟨"ATL06", none, none, none, none⟩ =
      Except.ok "https://n5eil02u.ecs.nsidc.org/egi/request?short_name=ATL06" ∧
    ((nsidc_subset_altimetry (fun _ => Except.error (FormatError.badZip "x"))
        ⟨2019, 1, 2, 3, 4, 5⟩ 420
        (fun _ => Except.ok [7, 8, 9]) [("keep.txt", ⟨[1], 292⟩)]
        "/data" "ATL06" none none none none
        "u" "p" 509 false false false).outcome = Except.ok () ∧
     (nsidc_subset_altimetry (fun _ => Except.error (FormatError.badZip "x"))
        ⟨2019, 1, 2, 3, 4, 5⟩ 420
        (fun _ => Except.ok [7, 8, 9]) [("keep.txt", ⟨[1], 292⟩)]
        "/data" "ATL06" none none none none
        "u" "p" 509 false false false).fs.get
        (pathJoin "/data" ("ATL06" ++ "_" ++ formatToday ⟨2019, 1, 2, 3, 4, 5⟩ ++ ".zip"))
       = some ⟨[7, 8, 9], 509⟩ ∧
     (∀ q, q ≠ pathJoin "/data" ("ATL06" ++ "_" ++ formatToday ⟨2019, 1, 2, 3, 4, 5⟩ ++ ".zip") →
       (nsidc_subset_altimetry (fun _ => Except.error (FormatError.badZip "x"))
          ⟨2019, 1, 2, 3, 4, 5⟩ 420
          (fun _ => Except.ok [7, 8, 9]) [("keep.txt", ⟨[1], 292⟩)]
          "/data" "ATL06" none none none none
          "u" "p" 509 false false false).fs.get q = FS.get [("keep.txt", ⟨[1], 292⟩)] q) ∧
     (copyChunks [7, 8, 9]).flatten = [7, 8, 9] ∧
     (∀ c ∈ copyChunks [7, 8, 9], c.length ≤ CHUNK)) :=
  ⟨by rfl,
   archive_mode_single_file (fun _ => Except.error (FormatError.badZip "x"))
     ⟨2019, 1, 2, 3, 4, 5⟩ 420 (fun _ => Except.ok [7, 8, 9])
     [("keep.txt", ⟨[1], 292⟩)] "/data" "ATL06" none none none none
     "u" "p" 509 false false
     "https://n5eil02u.ecs.nsidc.org/egi/request?short_name=ATL06" [7, 8, 9]
     (by rfl) (by rfl)⟩

/-- C7: in either delivery mode, a non-2xx response surfaces as a
transfer error carrying the HTTP status and leaves the file system
exactly as it was: no output file or directory is produced. -/
theorem non2xx_transfer_error
    (zp : List Nat → Except FormatError (List ZipMember)) (now : DateTime) (w : Nat)
    (status : Nat) (body : List Nat) (fs : FS)
    (fp PRODUCT : String) (V : Option String) (B : Option BBox)
    (T : Option (String × String)) (F : Option String)
    (U PW : String) (MODE : Nat) (cl vb : Bool)
    (url : String)
    (hq : remote_file ⟨PRODUCT, V, B, T, F⟩ = Except.ok url)
    (hs : ¬ (200 ≤ status ∧ status < 300)) :
    ∀ uz : Bool,
      nsidc_subset_altimetry zp now w (fun _ => urlopenResult status body) fs
          fp PRODUCT V B T F U PW MODE cl vb uz
        = ⟨buildOpener U PW, Except.error (RunError.transfer (HttpError.status status)), fs⟩ := by
  intro uz
  have hu : urlopenResult status body = Except.error (HttpError.status status) := by
    simp [urlopenResult, hs]
  cases uz <;> simp [nsidc_subset_altimetry, hq, hu]

/-- Witness for C7 at a simulated 401 in both modes. -/
theorem non2xx_transfer_error_check :
    remote_file ⟨"ATL03", none, none, none, none⟩ =
      Except.ok "https://n5eil02u.ecs.nsidc.org/egi/request?short_name=ATL03" ∧
    ¬ (200 ≤ 401 ∧ 401 < 300) ∧
    (∀ uz : Bool,
      nsidc_subset_altimetry (fun _ => Except.ok []) ⟨2019, 1, 2, 3, 4, 5⟩ 420
          (fun _ => urlopenResult 401 [7]) [("keep.txt", ⟨[1], 292⟩)]
          "/data" "ATL03" none none none none "u" "p" 509 false false uz
        = ⟨buildOpener "u" "p",
           Except.error (RunError.transfer (HttpError.status 401)),
           [("keep.txt", ⟨[1], 292⟩)]⟩) :=
  ⟨by rfl, by decide,
   non2xx_transfer_error (fun _ => Except.ok []) ⟨2019, 1, 2, 3, 4, 5⟩ 420
     401 [7] [("keep.txt", ⟨[1], 292⟩)] "/data" "ATL03" none none none none
     "u" "p" 509 false false
     "https://n5eil02u.ecs.nsidc.org/egi/request?short_name=ATL03"
     (by rfl) (by decide)⟩

/-- A list is a boolean prefix of itself followed by anything. -/
theorem isPrefixOf_append_self (l m : List Char) : l.isPrefixOf (l ++ m) = true := by
  induction l with
  | nil => simp [List.isPrefixOf]
  | cons a l ih => simp [List.isPrefixOf, ih]

/-- Every joined member path lies under the destination directory. -/
theorem pathJoin_under (dest fn : String) :
    isPrefixStr (dest ++ "/") (pathJoin dest fn) = true := by
  show (dest ++ "/").data.isPrefixOf ((dest ++ "/" ++ fn)).data = true
  rw [String.data_append (dest ++ "/") fn]
  exact isPrefixOf_append_self _ _

/-- Looking up a path other than the head's key skips the head. -/
theorem FS.get_cons_ne (fs : FS) (p q : String) (e : FileEntry) (h : q ≠ p) :
    FS.get ((p, e) :: fs) q = FS.get fs q := by
  simp only [FS.get]
  rw [List.find?_cons_of_neg _ (by simp [Ne.symm h])]

/-- A lookup that fails means no entry has that key. -/
theorem FS.get_none_iff (fs : FS) (q : String) :
    FS.get fs q = none ↔ ∀ kv ∈ fs, kv.1 ≠ q := by
  simp only [FS.get]
  constructor
  · intro h kv hkv
    cases hf : fs.find? (fun kv => kv.1 == q) with
    | some kv2 => rw [hf] at h; simp at h
    | none =>
      have := List.find?_eq_none.mp hf kv hkv
      simpa using this
  · intro h
    have : fs.find? (fun kv => kv.1 == q) = none :=
      List.find?_eq_none.mpr (fun kv hkv => by simpa using h kv hkv)
    rw [this]

/-- Setting and chmodding a fresh path just prepends the final entry. -/
theorem chmod_set_fresh (fs : FS) (p : String) (e : FileEntry) (m : Nat)
    (hfs : FS.get fs p = none) :
    FS.chmod (FS.set fs p e) p m = (p, ⟨e.content, m⟩) :: fs := by
  have hall : ∀ kv ∈ fs, kv.1 ≠ p := (FS.get_none_iff fs p).mp hfs
  have hfilter : fs.filter (fun kv => kv.1 != p) = fs :=
    List.filter_eq_self.mpr (fun kv hkv => by simpa using hall kv hkv)
  simp only [FS.set, hfilter, FS.chmod, List.map_cons]
  rw [if_pos (by simp : (((p, e) : String × FileEntry).1 == p) = true)]
  have htail : ∀ kv ∈ fs,
      (if (kv.1 == p) = true then ((kv.1, (⟨kv.2.content, m⟩ : FileEntry)) : String × FileEntry)
       else kv) = kv := by
    intro kv hkv
    rw [if_neg (by simpa using hall kv hkv)]
  rw [List.map_congr_left htail]
  simp

/-- The extraction loop over fresh, distinct member paths produces
exactly the member entries (in reverse) in front of the old state. -/
theorem extractFold_eq (dest : String) (MODE w : Nat) :
    ∀ (members : List ZipMember) (fs : FS),
      (∀ m ∈ members, FS.get fs (pathJoin dest m.filename) = none) →
      (members.map (fun m => pathJoin dest m.filename)).Nodup →
      extractFold dest MODE w fs members =
        (members.map (fun m =>
          (pathJoin dest m.filename, (⟨m.content, MODE⟩ : FileEntry)))).reverse ++ fs := by
  intro members
  induction members with
  | nil => intro fs _ _; rfl
  | cons mb ms ih =>
    intro fs hfresh hnd
    have hstep : FS.chmod (FS.set fs (pathJoin dest mb.filename) ⟨mb.content, w⟩)
        (pathJoin dest mb.filename) MODE =
        (pathJoin dest mb.filename, ⟨mb.content, MODE⟩) :: fs :=
      chmod_set_fresh fs _ _ MODE (hfresh mb (by simp))
    rw [List.map_cons] at hnd
    obtain ⟨hnotin, hnd2⟩ := List.nodup_cons.mp hnd
    have hfresh2 : ∀ m ∈ ms,
        FS.get ((pathJoin dest mb.filename, (⟨mb.content, MODE⟩ : FileEntry)) :: fs)
          (pathJoin dest m.filename) = none := by
      intro m hm
      rw [FS.get_cons_ne]
      · exact hfresh m (by simp [hm])
      · intro hqe
        exact hnotin (hqe ▸ List.mem_map_of_mem _ hm)
    show extractFold dest MODE w
        (FS.chmod (FS.set fs (pathJoin dest mb.filename) ⟨mb.content, w⟩)
          (pathJoin dest mb.filename) MODE) ms = _
    rw [hstep, ih _ hfresh2 hnd2]
    simp [List.reverse_cons, List.append_assoc]

/-- A lookup that succeeds on the front part succeeds on the whole. -/
theorem FS.get_append_left (l1 l2 : FS) (q : String) (e : FileEntry)
    (h : FS.get l1 q = some e) : FS.get (l1 ++ l2) q = some e := by
  simp only [FS.get] at h ⊢
  rw [List.find?_append]
  cases hf : l1.find? (fun kv => kv.1 == q) with
  | none => rw [hf] at h; simp at h
  | some kv => rw [hf] at h; simpa using h

/-- A lookup missing the front part falls through to the back part. -/
theorem FS.get_append_right (l1 l2 : FS) (q : String)
    (h : FS.get l1 q = none) : FS.get (l1 ++ l2) q = FS.get l2 q := by
  have hf : l1.find? (fun kv => kv.1 == q) = none := by
    cases hf : l1.find? (fun kv => kv.1 == q) with
    | none => rfl
    | some kv => simp only [FS.get, hf] at h; simp at h
  simp only [FS.get, List.find?_append, hf, Option.none_or]

/-- In a state with pairwise distinct keys, a stored pair is what
lookup returns. -/
theorem FS.get_of_mem_nodup (l : FS) (p : String) (e : FileEntry)
    (hmem : (p, e) ∈ l) (hnd : (l.map Prod.fst).Nodup) : FS.get l p = some e := by
  induction l with
  | nil => simp at hmem
  | cons kv t ih =>
    rcases List.mem_cons.mp hmem with heq | hmem2
    · subst heq
      simp only [FS.get]
      rw [List.find?_cons_of_pos _ (by simp)]
    · rw [List.map_cons] at hnd
      obtain ⟨hhead, htail⟩ := List.nodup_cons.mp hnd
      have hk : kv.1 ≠ p := by
        intro hkp
        have hp : p ∈ t.map Prod.fst := by
          have := List.mem_map_of_mem Prod.fst hmem2
          simpa using this
        exact hhead (hkp ▸ hp)
      simp only [FS.get]
      rw [List.find?_cons_of_neg _ (by simp [hk])]
      have := ih hmem2 htail
      simpa [FS.get] using this

/-- An empty count under a directory means every path there is
absent. -/
theorem countUnder_zero_get_none (fs : FS) (dest : String)
    (h : FS.countUnder fs dest = 0) :
    ∀ p, isPrefixStr (dest ++ "/") p = true → FS.get fs p = none := by
  intro p hp
  have hfil : fs.filter (fun kv => isPrefixStr (dest ++ "/") kv.1) = [] :=
    List.length_eq_zero.mp h
  have hall : ∀ kv ∈ fs, ¬ (isPrefixStr (dest ++ "/") kv.1 = true) := by
    intro kv hkv
    have := List.filter_eq_nil_iff.mp hfil kv hkv
    simpa using this
  apply (FS.get_none_iff fs p).mpr
  intro kv hkv heq
  apply hall kv hkv
  rw [heq]
  exact hp

/-- C6: a successful extract-mode transfer of an archive with distinct
member names, into a fresh destination directory, ends with exactly one
file per member below the destination directory, each member's file
holding its content with permission bits equal to the configured mode,
and no path outside the destination directory touched. -/
theorem extract_mode_members
    (zp : List Nat → Except FormatError (List ZipMember)) (now : DateTime) (w : Nat)
    (http : String → Except HttpError (List Nat)) (fs : FS)
    (fp PRODUCT : String) (V : Option String) (B : Option BBox)
    (T : Option (String × String)) (F : Option String)
    (U PW : String) (MODE : Nat) (cl vb : Bool)
    (url : String) (body : List Nat) (members : List ZipMember)
    (hq : remote_file ⟨PRODUCT, V, B, T, F⟩ = Except.ok url)
    (hr : http url = Except.ok body)
    (hz : zp body = Except.ok members)
    (hnd : (members.map (fun m =>
      pathJoin (pathJoin fp (PRODUCT ++ "_" ++ formatToday now)) m.filename)).Nodup)
    (hclean : FS.countUnder fs (pathJoin fp (PRODUCT ++ "_" ++ formatToday now)) = 0) :
    (nsidc_subset_altimetry zp now w http fs fp PRODUCT V B T F U PW MODE cl vb true).outcome
      = Except.ok () ∧
    FS.countUnder
        (nsidc_subset_altimetry zp now w http fs fp PRODUCT V B T F U PW MODE cl vb true).fs
        (pathJoin fp (PRODUCT ++ "_" ++ formatToday now))
      = members.length ∧
    (∀ m ∈ members,
      (nsidc_subset_altimetry zp now w http fs fp PRODUCT V B T F U PW MODE cl vb true).fs.get
          (pathJoin (pathJoin fp (PRODUCT ++ "_" ++ formatToday now)) m.filename)
        = some ⟨m.content, MODE⟩) ∧
    (∀ q, isPrefixStr (pathJoin fp (PRODUCT ++ "_" ++ formatToday now) ++ "/") q = false →
      (nsidc_subset_altimetry zp now w http fs fp PRODUCT V B T F U PW MODE cl vb true).fs.get q
        = fs.get q) := by
  have hres : nsidc_subset_altimetry zp now w http fs fp PRODUCT V B T F U PW MODE cl vb true
      = ⟨buildOpener U PW, Except.ok (),
         extractFold (pathJoin fp (PRODUCT ++ "_" ++ formatToday now)) MODE w fs members⟩ := by
    simp [nsidc_subset_altimetry, hq, hr, hz]
  have hfresh : ∀ m ∈ members,
      fs.get (pathJoin (pathJoin fp (PRODUCT ++ "_" ++ formatToday now)) m.filename) = none :=
    fun m _ => countUnder_zero_get_none fs _ hclean _ (pathJoin_under _ m.filename)
  have hfold := extractFold_eq (pathJoin fp (PRODUCT ++ "_" ++ formatToday now)) MODE w
    members fs hfresh hnd
  rw [hres]
  refine ⟨rfl, ?_, ?_, ?_⟩
  · show FS.countUnder (extractFold _ MODE w fs members) _ = members.length
    rw [hfold]
    simp only [FS.countUnder, List.filter_append, List.length_append]
    have h1 : ((members.map (fun m =>
        (pathJoin (pathJoin fp (PRODUCT ++ "_" ++ formatToday now)) m.filename,
         (⟨m.content, MODE⟩ : FileEntry)))).reverse).filter
          (fun kv => isPrefixStr (pathJoin fp (PRODUCT ++ "_" ++ formatToday now) ++ "/") kv.1)
        = (members.map (fun m =>
        (pathJoin (pathJoin fp (PRODUCT ++ "_" ++ formatToday now)) m.filename,
         (⟨m.content, MODE⟩ : FileEntry)))).reverse := by
      apply List.filter_eq_self.mpr
      intro kv hkv
      rw [List.mem_reverse] at hkv
      obtain ⟨m, _, hm2⟩ := List.mem_map.mp hkv
      subst hm2
      simpa using pathJoin_under _ m.filename
    rw [h1]
    have h2 := hclean
    simp only [FS.countUnder] at h2
    rw [h2]
    simp
  · intro m hm
    show FS.get (extractFold _ MODE w fs members) _ = _
    rw [hfold]
    apply FS.get_append_left
    apply FS.get_of_mem_nodup
    · rw [List.mem_reverse]
      exact List.mem_map_of_mem _ hm
    · rw [List.map_reverse, List.map_map]
      apply List.nodup_reverse.mpr
      simpa [Function.comp] using hnd
  · intro q hqout
    show FS.get (extractFold _ MODE w fs members) q = _
    rw [hfold]
    apply FS.get_append_right
    apply (FS.get_none_iff _ q).mpr
    intro kv hkv heq
    rw [List.mem_reverse] at hkv
    obtain ⟨m, _, hm2⟩ := List.mem_map.mp hkv
    subst hm2
    dsimp only at heq
    have := pathJoin_under (pathJoin fp (PRODUCT ++ "_" ++ formatToday now)) m.filename
    rw [heq] at this
    rw [this] at hqout
    simp at hqout

/-- Witness for C6 on a concrete two-member archive. -/
theorem extract_mode_members_check :
    remote_file ⟨"ATL08", none, none, none, none⟩ =
      Except.ok "https://n5eil02u.ecs.nsidc.org/egi/request?short_name=ATL08" ∧
    ((fun _ => Except.ok [⟨"a.txt", [65]⟩, ⟨"b.txt", [66]⟩] :
        List Nat → Except FormatError (List ZipMember)) [0] =
      Except.ok [⟨"a.txt", [65]⟩, ⟨"b.txt", [66]⟩]) ∧
    (([⟨"a.txt", [65]⟩, ⟨"b.txt", [66]⟩] : List ZipMember).map (fun m =>
      pathJoin (pathJoin "/data" ("ATL08" ++ "_" ++ formatToday ⟨2019, 1, 2, 3, 4, 5⟩))
        m.filename)).Nodup ∧
    FS.countUnder [("keep.txt", ⟨[1], 292⟩)]
      (pathJoin "/data" ("ATL08" ++ "_" ++ formatToday ⟨2019, 1, 2, 3, 4, 5⟩)) = 0 ∧
    ((nsidc_subset_altimetry
        (fun _ => Except.ok [⟨"a.txt", [65]⟩, ⟨"b.txt", [66]⟩])
        ⟨2019, 1, 2, 3, 4, 5⟩ 420 (fun _ => Except.ok [0])
        [("keep.txt", ⟨[1], 292⟩)] "/data" "ATL08" none none none none
        "u" "p" 509 false false true).outcome = Except.ok () ∧
     FS.countUnder
        (nsidc_subset_altimetry
          (fun _ => Except.ok [⟨"a.txt", [65]⟩, ⟨"b.txt", [66]⟩])
          ⟨2019, 1, 2, 3, 4, 5⟩ 420 (fun _ => Except.ok [0])
          [("keep.txt", ⟨[1], 292⟩)] "/data" "ATL08" none none none none
          "u" "p" 509 false false true).fs
        (pathJoin "/data" ("ATL08" ++ "_" ++ formatToday ⟨2019, 1, 2, 3, 4, 5⟩))
       = ([⟨"a.txt", [65]⟩, ⟨"b.txt", [66]⟩] : List ZipMember).length ∧
     (∀ m ∈ ([⟨"a.txt", [65]⟩, ⟨"b.txt", [66]⟩] : List ZipMember),
       (nsidc_subset_altimetry
          (fun _ => Except.ok [⟨"a.txt", [65]⟩, ⟨"b.txt", [66]⟩])
          ⟨2019, 1, 2, 3, 4, 5⟩ 420 (fun _ => Except.ok [0])
          [("keep.txt", ⟨[1], 292⟩)] "/data" "ATL08" none none none none
          "u" "p" 509 false false true).fs.get
          (pathJoin (pathJoin "/data" ("ATL08" ++ "_" ++ formatToday ⟨2019, 1, 2, 3, 4, 5⟩))
            m.filename)
         = some ⟨m.content, 509⟩) ∧
     (∀ q, isPrefixStr
          (pathJoin "/data" ("ATL08" ++ "_" ++ formatToday ⟨2019, 1, 2, 3, 4, 5⟩) ++ "/") q
          = false →
       (nsidc_subset_altimetry
          (fun _ => Except.ok [⟨"a.txt", [65]⟩, ⟨"b.txt", [66]⟩])
          ⟨2019, 1, 2, 3, 4, 5⟩ 420 (fun _ => Except.ok [0])
          [("keep.txt", ⟨[1], 292⟩)] "/data" "ATL08" none none none none
          "u" "p" 509 false false true).fs.get q
         = FS.get [("keep.txt", ⟨[1], 292⟩)] q)) :=
  ⟨by rfl, by rfl, by decide, by rfl,
   extract_mode_members
     (fun _ => Except.ok [⟨"a.txt", [65]⟩, ⟨"b.txt", [66]⟩])
     ⟨2019, 1, 2, 3, 4, 5⟩ 420 (fun _ => Except.ok [0])
     [("keep.txt", ⟨[1], 292⟩)] "/data" "ATL08" none none none none
     "u" "p" 509 false false
     "https://n5eil02u.ecs.nsidc.org/egi/request?short_name=ATL08"
     [0] [⟨"a.txt", [65]⟩, ⟨"b.txt", [66]⟩]
     (by rfl) (by rfl) (by rfl) (by decide) (by rfl)⟩

/-- Counterexample for C8 as stated: the reachability probe of the
source's connectivity check opens a URL that is not on the resource
host the data requests go to; the data-request endpoint is on host
n5eil02u while the probe opens host n5eil01u. -/
theorem connectivity_probe_host_mismatch :
    connectionURL = "https://n5eil01u.ecs.nsidc.org/" ∧
    isPrefixStr "https://n5eil02u.ecs.nsidc.org" HOST = true ∧
    isPrefixStr "https://n5eil02u.ecs.nsidc.org" connectionURL = false := by
  exact ⟨rfl, by decide, by decide⟩

/-- C8 (amended): the guard probes a fixed NSIDC host (n5eil01u, not
the data-request host) with a one-second timeout before any transfer;
on success it returns the pass-through boolean true, and on failure the
whole run aborts with the connectivity error before any query is
constructed or any request issued. -/
theorem connectivity_guard_aborts (products : List String) (V : Option String)
    (B : Option BBox) (T : Option (String × String)) (F : Option String)
    (hne : products ≠ []) :
    check_connection true = Except.ok true ∧
    runMain false products V B T F = (Except.error RunError.connectivity, []) ∧
    connectionURL = "https://n5eil01u.ecs.nsidc.org/" ∧
    connectionTimeout = 1 := by
  refine ⟨rfl, ?_, rfl, rfl⟩
  have hemp : products.isEmpty = false := by
    cases products with
    | nil => exact absurd rfl hne
    | cons a l => rfl
  simp [runMain, hemp, check_connection]

/-- Witness for C8 (amended) at a concrete product list. -/
theorem connectivity_guard_aborts_check :
    (["ATL06"] : List String) ≠ [] ∧
    (check_connection true = Except.ok true ∧
     runMain false ["ATL06"] none none none none = (Except.error RunError.connectivity, []) ∧
     connectionURL = "https://n5eil01u.ecs.nsidc.org/" ∧
     connectionTimeout = 1) :=
  ⟨by decide, connectivity_guard_aborts ["ATL06"] none none none none (by decide)⟩

/-- The per-product loop reaches the first invalid product, aborts with
the error naming it, and has issued exactly one request per earlier
valid product. -/
theorem processProducts_invalid (V : Option String) (B : Option BBox)
    (T : Option (String × String)) (F : Option String)
    (ti : Option (String × String)) (ht : parseTimes T = Except.ok ti)
    (p : String) (post : List String) (hp : p ∉ validProducts) :
    ∀ (pre : List String) (acc : List String),
      (∀ q ∈ pre, q ∈ validProducts) →
      (processProducts V B T F (pre ++ p :: post) acc).1
          = Except.error (RunError.invalidProduct p) ∧
      (processProducts V B T F (pre ++ p :: post) acc).2.length
          = acc.length + pre.length := by
  intro pre
  induction pre with
  | nil =>
    intro acc _
    simp [processProducts, hp]
  | cons a pre ih =>
    intro acc hpre
    have ha : a ∈ validProducts := hpre a (by simp)
    cases hurl : remote_file ⟨a, V, B, T, F⟩ with
    | error e =>
      rw [remote_file, time_flag, ht] at hurl
      simp [Except.map] at hurl
    | ok url =>
      simp only [List.cons_append, processProducts, if_pos ha, hurl]
      have hrec := ih (url :: acc) (fun q hq => hpre q (by simp [hq]))
      refine ⟨hrec.1, ?_⟩
      show (processProducts V B T F (pre ++ p :: post) (url :: acc)).2.length
          = acc.length + (a :: pre).length
      rw [hrec.2]
      simp only [List.length_cons]
      omega

/-- C9: with connectivity up, a run whose argument list contains a
product outside the fixed product set aborts with the error naming that
product (after the earlier valid products were each processed), and the
run's outcome is the single error value: no partial-success exit
distinction exists. -/
theorem invalid_product_aborts_run (pre : List String) (p : String) (post : List String)
    (V : Option String) (B : Option BBox) (T : Option (String × String)) (F : Option String)
    (ti : Option (String × String))
    (hpre : ∀ q ∈ pre, q ∈ validProducts)
    (hp : p ∉ validProducts)
    (ht : parseTimes T = Except.ok ti) :
    (runMain true (pre ++ p :: post) V B T F).1 = Except.error (RunError.invalidProduct p) ∧
    errorMessage (RunError.invalidProduct p) = "Incorrect Data Product Entered (" ++ p ++ ")" ∧
    (runMain true (pre ++ p :: post) V B T F).2.length = pre.length := by
  have hemp : (pre ++ p :: post).isEmpty = false := by
    cases pre <;> rfl
  have hrun : runMain true (pre ++ p :: post) V B T F
      = processProducts V B T F (pre ++ p :: post) [] := by
    simp [runMain, hemp, check_connection]
  have h := processProducts_invalid V B T F ti ht p post hp pre [] hpre
  rw [hrun]
  exact ⟨h.1, rfl, by simpa using h.2⟩

/-- Witness for C9: one valid product then an invalid one. -/
theorem invalid_product_aborts_run_check :
    (∀ q ∈ (["ATL06"] : List String), q ∈ validProducts) ∧
    "ATL99" ∉ validProducts ∧
    parseTimes none = Except.ok none ∧
    ((runMain true (["ATL06"] ++ "ATL99" :: []) none none none none).1
        = Except.error (RunError.invalidProduct "ATL99") ∧
     errorMessage (RunError.invalidProduct "ATL99")
        = "Incorrect Data Product Entered (" ++ "ATL99" ++ ")" ∧
     (runMain true (["ATL06"] ++ "ATL99" :: []) none none none none).2.length
        = (["ATL06"] : List String).length) :=
  ⟨by decide, by decide, rfl,
   invalid_product_aborts_run ["ATL06"] "ATL99" [] none none none none none
     (by decide) (by decide) rfl⟩

/-- C10: two calls of the subset routine that differ only in the
CLOBBER argument are identical in every observable: the parameter is
accepted but never read. -/
theorem clobber_never_read
    (zp : List Nat → Except FormatError (List ZipMember)) (now : DateTime) (w : Nat)
    (http : String → Except HttpError (List Nat)) (fs : FS)
    (fp PRODUCT : String) (V : Option String) (B : Option BBox)
    (T : Option (String × String)) (F : Option String)
    (U PW : String) (MODE : Nat) (c1 c2 vb uz : Bool) :
    nsidc_subset_altimetry zp now w http fs fp PRODUCT V B T F U PW MODE c1 vb uz =
    nsidc_subset_altimetry zp now w http fs fp PRODUCT V B T F U PW MODE c2 vb uz := rfl

end NS
